import Mathlib

/-!
# Verification of the AntaresStudio sparse-SfM reconstruction pipeline

Shallow embedding of the reconstruction core of the AntaresLab repository:

* `ReconstructionWorker` in `AntaresStudio/antares_studio_final.py`
  (feature matching, pose chaining, triangulation, outlier filtering,
  export), and
* `reconstruct_sparse` in `AntaresStudio/core/reconstruction.py`.

Numeric scalars of the Python/numpy code are embedded as `ℚ` (the control
flow of the pipeline consists of exact comparisons of such scalars); the
results of external OpenCV/Open3D calls (`findEssentialMat`, `recoverPose`,
`triangulatePoints`, image decoding, the Open3D mesh block) are supplied as
explicit oracle parameters describing what those calls returned, while all
control flow, arithmetic and data-plumbing around them is translated from
the source.  `numpy.sqrt` (used only to produce the distances fed to the
quantile filter) is likewise an explicit function parameter.
-/

namespace Antares

/-! ## Small linear algebra over ℚ (numpy 3×3 / 3-vector operations) -/

abbrev Mat3 := Fin 3 → Fin 3 → ℚ
abbrev Vec3 := Fin 3 → ℚ

/-- numpy `A @ B` for 3×3 matrices. -/
def matMul (A B : Mat3) : Mat3 := fun i j => ∑ k, A i k * B k j

/-- numpy `A @ v` for a 3×3 matrix and a 3-vector. -/
def matVec (A : Mat3) (v : Vec3) : Vec3 := fun i => ∑ k, A i k * v k

/-- numpy vector addition. -/
def vAdd (a b : Vec3) : Vec3 := fun i => a i + b i

/-- `np.eye(3)`. -/
def idMat : Mat3 := fun i j => if i = j then 1 else 0

/-- `np.zeros((3, 1))`. -/
def zeroVec : Vec3 := fun _ => 0

/-- A camera pose: rotation `R` and translation `t`, one entry of the
`poses` dictionary of `ReconstructionWorker._estimate_pose_chain`. -/
structure Pose where
  R : Mat3
  t : Vec3
deriving DecidableEq

/-! ## Pair matching (`ReconstructionWorker._match_pair`, lines 581–598)

`matcher.knnMatch(des1, des2, k=2)` returns, for each descriptor of the
first set, its two nearest neighbours in the second set under the shared
norm of the feature packs (`cv2.BFMatcher(norm)`; for SIFT the FLANN
matcher is used with the same 2-nearest-neighbour contract).  The
descriptor distance function `d` is an oracle parameter: `d a t` is the
distance between descriptor `a` of the first set and descriptor `t` of the
second set. -/

/-- One accepted correspondence, mirroring `cv2.DMatch`
(`queryIdx`/`trainIdx`/`distance`). -/
structure DMatch where
  queryIdx : ℕ
  trainIdx : ℕ
  distance : ℚ
deriving DecidableEq

/-- Comparison of matcher candidates `(trainIdx, distance)` by distance. -/
def candLE : ℕ × ℚ → ℕ × ℚ → Prop := fun p q => p.2 ≤ q.2

instance : DecidableRel candLE := fun p q => inferInstanceAs (Decidable (p.2 ≤ q.2))

instance : IsTotal (ℕ × ℚ) candLE := ⟨fun a b => le_total a.2 b.2⟩

instance : IsTrans (ℕ × ℚ) candLE := ⟨fun _ _ _ hab hbc => le_trans hab hbc⟩

/-- The candidate list `(t, d t)` for `t` ranging over the second
descriptor set, sorted by ascending distance: the semantics of
`knnMatch(..., k=2)` is to hand back the first two entries of this list. -/
def sortedCands (d : ℕ → ℚ) (lenB : ℕ) : List (ℕ × ℚ) :=
  List.insertionSort candLE ((List.range lenB).map fun t => (t, d t))

/-- The two nearest neighbours (`knnMatch` with `k=2`); `none` when the
second set has fewer than two descriptors (the source then skips the
query via `if len(pair) < 2: continue`). -/
def bestTwo (d : ℕ → ℚ) (lenB : ℕ) : Option ((ℕ × ℚ) × (ℕ × ℚ)) :=
  match sortedCands d lenB with
  | p :: q :: _ => some (p, q)
  | _ => none

/-- `ReconstructionWorker._match_pair`: for every query descriptor `a`,
take its two nearest neighbours `m, n` and accept the correspondence
iff `m.distance < 0.75 * n.distance` (Lowe ratio test).  Identical
acceptance logic appears in `core/reconstruction.py::_match`. -/
def matchPair (d : ℕ → ℕ → ℚ) (lenA lenB : ℕ) : List DMatch :=
  (List.range lenA).filterMap fun a =>
    match bestTwo (d a) lenB with
    | some ((b, db), (_, ds)) => if db < 3/4 * ds then some ⟨a, b, db⟩ else none
    | none => none

/-! ## Adjacent matching (`ReconstructionWorker._match_adjacent`, lines 600–618) -/

/-- One element of the `matches` list: image indices `(i, j)` and the
accepted correspondences. -/
abbrev MatchEntry := ℕ × ℕ × List DMatch

/-- `pairs = [(i, i + 1) for i in range(n - 1)]`, plus the wrap pair
`(n - 1, 0)` when `wrap_match` is on and `n >= 3`. -/
def adjPairs (n : ℕ) (wrap : Bool) : List (ℕ × ℕ) :=
  ((List.range (n - 1)).map fun i => (i, i + 1)) ++
    (if wrap ∧ 3 ≤ n then [(n - 1, 0)] else [])

/-- The matching loop of `_match_adjacent`: `is_cancelled()` is polled at
the start of each pair iteration (`cancelAt idx` is the value the poll at
enumeration index `idx` returns); on a `true` poll the loop `break`s.  A
pair is recorded iff its accepted correspondences number at least
`min_matches`.  Returns the recorded matches and whether a cancellation
was observed. -/
def matchLoop (cancelAt : ℕ → Bool) (good : ℕ × ℕ → List DMatch) (minM : ℕ) :
    List (ℕ × ℕ) → ℕ → List MatchEntry × Bool
  | [], _ => ([], false)
  | p :: rest, idx =>
    if cancelAt idx then ([], true)
    else
      let g := good p
      let r := matchLoop cancelAt good minM rest (idx + 1)
      (if minM ≤ g.length then (p.1, p.2, g) :: r.1 else r.1, r.2)

/-! ## Pose chaining (`ReconstructionWorker._estimate_pose_chain`, lines 620–663) -/

/-- What `cv2.findEssentialMat` + `cv2.recoverPose` produced for the pair
`(j - 1, j)`: `none` models `E is None` (estimation failure, the pair is
skipped), `some g` the recovered relative rotation/translation. -/
structure PairGeom where
  Rrel : Mat3
  trel : Vec3
deriving DecidableEq

/-- `match_map = {(i, j): ms for i, j, ms in matches}` followed by a key
lookup: a Python dict comprehension keeps the *last* binding of a key. -/
def lookupMatch (mts : List MatchEntry) (i j : ℕ) : Option (List DMatch) :=
  mts.foldl (fun acc e => if e.1 = i ∧ e.2.1 = j then some e.2.2 else acc) none

/-- `poses = {0: (np.eye(3), np.zeros((3, 1)))}`: pose 0 is fixed to the
identity rotation and zero translation before any pair is processed. -/
def initPoses : ℕ → Option Pose :=
  fun k => if k = 0 then some ⟨idMat, zeroVec⟩ else none

/-- One iteration of the forward chain, for loop index `j` (the pair is
`(j - 1, j)`): skip when the adjacent pair was not matched, when essential
matrix estimation failed, or when pose `j - 1` is unknown; otherwise set
`poses[j] = (R_rel @ R_i, R_rel @ t_i + t_rel)`. -/
def chainStep (mts : List MatchEntry) (geom : ℕ → Option PairGeom)
    (poses : ℕ → Option Pose) (j : ℕ) : ℕ → Option Pose :=
  match lookupMatch mts (j - 1) j with
  | none => poses
  | some _ =>
    match geom j with
    | none => poses
    | some g =>
      match poses (j - 1) with
      | none => poses
      | some pi =>
        fun k => if k = j then some ⟨matMul g.Rrel pi.R, vAdd (matVec g.Rrel pi.t) g.trel⟩
                 else poses k

/-- The chain state after the loop has processed `j = 1, …, m`. -/
def chainUpTo (mts : List MatchEntry) (geom : ℕ → Option PairGeom) (m : ℕ) :
    ℕ → Option Pose :=
  (List.range' 1 m).foldl (chainStep mts geom) initPoses

/-- `for j in range(1, len(feats))` — the full chain over `n` images. -/
def estimatePoseChain (n : ℕ) (mts : List MatchEntry)
    (geom : ℕ → Option PairGeom) : ℕ → Option Pose :=
  chainUpTo mts geom (n - 1)

/-- `len(poses)` for the pose dictionary (all keys lie in `[0, n)`). -/
def posesCount (n : ℕ) (poses : ℕ → Option Pose) : ℕ :=
  ((List.range n).filter fun k => (poses k).isSome).length

/-! ## Triangulation (`ReconstructionWorker._triangulate_sparse`, lines 665–719)

`cv2.triangulatePoints(P1, P2, pts1.T, pts2.T)` is an external solver; it
is supplied as an oracle mapping the two projection matrices and the two
2-D point lists to the list of homogeneous 4-vectors (the columns of its
output).  Everything around it — the pose lookups, the projection
matrices, the dehomogenisation and the filters — is translated from the
source.  Colour sampling parallels the point list one-to-one (one colour
per correspondence, from image `i` only) and plays no part in any claim,
so points alone are carried. -/

abbrev Pt3 := Fin 3 → ℚ
abbrev HPt := Fin 4 → ℚ
abbrev Mat34 := Fin 3 → Fin 4 → ℚ

/-- `np.hstack([R, t])`. -/
def hstack (p : Pose) : Mat34 :=
  fun r c => if h : (c : ℕ) < 3 then p.R r ⟨c, h⟩ else p.t r

/-- `P = K @ np.hstack([R, t])`. -/
def projMatrix (K : Mat3) (p : Pose) : Mat34 := fun i j => ∑ k, K i k * hstack p k j

/-- The denominator used by the dehomogenisation `X4[:3] / (X4[3] + 1e-9)`
(worker line 689; the same expression at `core/reconstruction.py` line
106): the last homogeneous coordinate offset by `1e-9`. -/
def dehomDenom (w : ℚ) : ℚ := w + 1 / 1000000000

/-- Dehomogenise one column of the `cv2.triangulatePoints` output.  When
`dehomDenom` is exactly zero the float division produces non-finite
coordinates, which the `np.isfinite(...).all(axis=1)` mask at line 704
drops again: that case is modelled as `none`. -/
def dehom (X : HPt) : Option Pt3 :=
  if dehomDenom (X 3) = 0 then none
  else some fun c => X c.castSucc / dehomDenom (X 3)

/-- `cv2.triangulatePoints` as an oracle (projection matrices and image
points in, homogeneous 3-D points out). -/
abbrev TriOracle := Mat34 → Mat34 → List (ℚ × ℚ) → List (ℚ × ℚ) → List HPt

/-- The per-run data `_triangulate_sparse` consumes besides poses and
matches: the shared intrinsics `K`, the keypoint coordinates
(`feats[i].xy[k]`) and the triangulation oracle. -/
structure TriEnv where
  K : Mat3
  xy : ℕ → ℕ → ℚ × ℚ
  tri : TriOracle

/-- The body of the `for (i, j, ms) in matches` loop of
`_triangulate_sparse`: pairs whose endpoints both carry a pose are
triangulated from the two projection matrices; others contribute
nothing. -/
def triangulateMatch (env : TriEnv) (poses : ℕ → Option Pose) (e : MatchEntry) :
    List Pt3 :=
  match poses e.1, poses e.2.1 with
  | some pi, some pj =>
    let P1 := projMatrix env.K pi
    let P2 := projMatrix env.K pj
    let pts1 := e.2.2.map fun m => env.xy e.1 m.queryIdx
    let pts2 := e.2.2.map fun m => env.xy e.2.1 m.trainIdx
    (env.tri P1 P2 pts1 pts2).filterMap dehom
  | _, _ => []

/-- All finite triangulated points accumulated across the match list
(`pts_all` after the `np.isfinite` mask). -/
def triangulateSparse (env : TriEnv) (poses : ℕ → Option Pose)
    (mts : List MatchEntry) : List Pt3 :=
  (mts.map (triangulateMatch env poses)).flatten

/-! ## Point-cloud outlier filter (worker lines 710–717)

The block

```
center = np.median(pts, axis=0)
dist = np.linalg.norm(pts - center, axis=1)
keep = dist < np.quantile(dist, 0.98)
```

guarded by `if pts.shape[0] > 0`.  `np.sqrt` (inside `np.linalg.norm`) is
an explicit function parameter `sqrt`; every property proved below holds
for an arbitrary `sqrt`, hence in particular for the real square root the
floats approximate. -/

/-- A 3-D point of the accumulated cloud. -/
structure P3 where
  x : ℚ
  y : ℚ
  z : ℚ
deriving DecidableEq

/-- The ascending sort underlying `np.median` and `np.quantile`. -/
def npSort (l : List ℚ) : List ℚ := List.insertionSort (· ≤ ·) l

/-- `np.median` of a 1-D array: middle order statistic, or the mean of the
two middle ones for even length. -/
def npMedian (l : List ℚ) : ℚ :=
  let s := npSort l
  if l.length % 2 = 1 then s.getD (l.length / 2) 0
  else (s.getD (l.length / 2 - 1) 0 + s.getD (l.length / 2) 0) / 2

/-- `np.quantile(l, q)` with numpy's default linear interpolation: for the
virtual index `h = q * (n - 1)` the value is
`s[⌊h⌋] + (h - ⌊h⌋) * (s[⌈h⌉] - s[⌊h⌋])` over the sorted data `s`. -/
def npQuantile (l : List ℚ) (q : ℚ) : ℚ :=
  let s := npSort l
  let h : ℚ := q * ((l.length : ℚ) - 1)
  let lo := ⌊h⌋.toNat
  let hi := ⌈h⌉.toNat
  s.getD lo 0 + (h - (lo : ℚ)) * (s.getD hi 0 - s.getD lo 0)

/-- `center = np.median(pts, axis=0)` — the per-coordinate median. -/
def centroid (pts : List P3) : P3 :=
  ⟨npMedian (pts.map P3.x), npMedian (pts.map P3.y), npMedian (pts.map P3.z)⟩

/-- `np.linalg.norm(p - center)` — Euclidean distance of one point from the
centroid, with `sqrt` the (parametric) numpy square root. -/
def distTo (sqrt : ℚ → ℚ) (p c : P3) : ℚ :=
  sqrt ((p.x - c.x) ^ 2 + (p.y - c.y) ^ 2 + (p.z - c.z) ^ 2)

/-- The outlier filter: keep exactly the points whose centroid distance is
strictly below the 0.98 quantile of the distance distribution of the whole
(pre-filter) point set; empty input is passed through unchanged. -/
def quantileFilter (sqrt : ℚ → ℚ) (pts : List P3) : List P3 :=
  if 0 < pts.length then
    pts.filter fun p => distTo sqrt p (centroid pts) <
      npQuantile (pts.map fun q => distTo sqrt q (centroid pts)) (98 / 100)
  else pts

/-! ## Export (`ReconstructionWorker._export_outputs`, lines 721–771)

`_write_ply_points` writes `point_cloud.ply` first; the whole Open3D mesh
block is wrapped in `try/except`, returning the point-cloud path on any
exception and the mesh path on success.  The outcome of the Open3D block
is an oracle: either it raised (at one of the three file-write boundaries
or before any mesh file was written) or it completed with some mesh. -/

/-- Outcome of the Open3D mesh block.  `completed` carries the vertex and
triangle counts of the final mesh (the code never inspects them — in
particular an empty mesh is not detected). -/
inductive MeshOutcome
  | raisedBeforePly
  | raisedAfterPly
  | raisedAfterObj
  | completed (nVerts nTris : ℕ)
deriving DecidableEq

/-- The mesh files on disk for each outcome of the mesh block. -/
def MeshOutcome.meshFiles : MeshOutcome → List String
  | .raisedBeforePly => []
  | .raisedAfterPly => ["mesh.ply"]
  | .raisedAfterObj => ["mesh.ply", "mesh.obj"]
  | .completed _ _ => ["mesh.ply", "mesh.obj", "mesh.stl"]

/-- Whether the mesh block raised an exception. -/
def MeshOutcome.raised : MeshOutcome → Bool
  | .completed _ _ => false
  | _ => true

/-- `_export_outputs`: (files on disk afterwards, returned main path). -/
def exportOutputs (o : MeshOutcome) : List String × String :=
  ("point_cloud.ply" :: o.meshFiles,
    if o.raised then "point_cloud.ply" else "mesh.ply")

/-! ## The worker pipeline (`ReconstructionWorker.run`, lines 450–532)

The stages execute strictly in sequence; each fatal guard raises a
`UserFacingError` that reaches the caller's error channel with nothing
written.  The error taxonomy below names the five fatal guards of `run`.
The cancellation flag polled by `is_cancelled()` appears in two loops
only: the per-pair matching loop (modelled in `matchLoop`) and the
feature-extraction *log summary* loop, where a `true` poll merely stops
the log output — features are already extracted at that point and the
pipeline proceeds, so that poll does not influence the run's data flow.
The triangulation stage (`_triangulate_sparse`, modelled in detail by
`triangulateSparse`, `dehom` and `quantileFilter` above) contains no
cancellation poll and writes no file; at run level only the size of its
output is consulted (`if pts.shape[0] < 200`), which enters here as the
stage oracle `triCount` applied to the stage's inputs. -/

/-- The five fatal `UserFacingError` guards of `run`, in pipeline order. -/
inductive RunError
  | inputError | readError | featureError | matchError | poseError | geometryError
deriving DecidableEq

/-- Terminal result of a worker run: the emitted result path or the fatal
error kind. -/
inductive RunOutcome
  | ok (mainPath : String)
  | err (e : RunError)
deriving DecidableEq

/-- The pipeline stages a run enters, in order. -/
inductive Stage
  | load | extract | matching | pose | tri | exporting
deriving DecidableEq

/-- What a worker run did: terminal outcome, files written, stages
entered, and whether a cancellation was observed at a pair boundary. -/
structure RunResult where
  outcome : RunOutcome
  written : List String
  trace : List Stage
  cancelObserved : Bool
deriving DecidableEq

/-- The external world of one worker run: the supplied paths, what
`cv2.imread` / the detector / the matcher distances / the essential-matrix
calls returned, the configuration, the cancellation schedule, and the
triangulation-stage and mesh-block oracles. -/
structure WorkerEnv where
  nPaths : ℕ
  decodeOk : ℕ → Bool
  featLen : ℕ → ℕ
  dist : ℕ → ℕ → ℕ → ℕ → ℚ
  minMatches : ℕ
  wrap : Bool
  cancelAt : ℕ → Bool
  geom : ℕ → Option PairGeom
  triCount : List MatchEntry → (ℕ → Option Pose) → ℕ
  meshOutcome : MeshOutcome

/-- `len(imgs)` after the decode loop dropped unreadable files. -/
def workerNImgs (env : WorkerEnv) : ℕ :=
  ((List.range env.nPaths).filter fun i => env.decodeOk i).length

/-- `_match_pair` applied to the feature packs of a pair of images. -/
def workerGood (env : WorkerEnv) : ℕ × ℕ → List DMatch :=
  fun p => matchPair (env.dist p.1 p.2) (env.featLen p.1) (env.featLen p.2)

/-- `ReconstructionWorker.run`: the full stage sequence with its fatal
guards, in source order. -/
def workerRun (env : WorkerEnv) : RunResult :=
  if env.nPaths < 8 then ⟨.err .inputError, [], [], false⟩
  else
    let n := workerNImgs env
    if n < 8 then ⟨.err .readError, [], [.load], false⟩
    else if ((List.range n).map env.featLen).sum = 0 then
      ⟨.err .featureError, [], [.load, .extract], false⟩
    else
      let mr := matchLoop env.cancelAt (workerGood env) env.minMatches
        (adjPairs n env.wrap) 0
      if mr.1.length < 2 then
        ⟨.err .matchError, [], [.load, .extract, .matching], mr.2⟩
      else
        let poses := estimatePoseChain n mr.1 env.geom
        if posesCount n poses < 2 then
          ⟨.err .poseError, [], [.load, .extract, .matching, .pose], mr.2⟩
        else if env.triCount mr.1 poses < 200 then
          ⟨.err .geometryError, [], [.load, .extract, .matching, .pose, .tri], mr.2⟩
        else
          let ex := exportOutputs env.meshOutcome
          ⟨.ok ex.2, ex.1,
            [.load, .extract, .matching, .pose, .tri, .exporting], mr.2⟩

/-! ## The core pipeline (`core/reconstruction.py::reconstruct_sparse`)

The per-pair loop checks `cancel_event.is_set()` at the start of each
iteration and raises `RuntimeError` when set, before anything is written
(both output writes sit after the loop).  Per-pair skips: fewer than 12
ratio-test matches, `E is None`, fewer than 10 RANSAC inliers.  The
numeric results of the external calls enter as per-pair oracles. -/

/-- The fatal outcomes of `reconstruct_sparse`: the cancellation
`RuntimeError` and the no-points `RuntimeError`. -/
inductive CoreErr
  | cancelled | noPoints
deriving DecidableEq

/-- The external world of one `reconstruct_sparse` run: image count,
cancellation schedule, and per-pair results of matching, essential-matrix
estimation (`essOk i = false` models `E is None`), inlier masking and
triangulation (number of finite points the pair contributes). -/
structure CoreEnv where
  nImgs : ℕ
  cancelAt : ℕ → Bool
  goodCount : ℕ → ℕ
  essOk : ℕ → Bool
  inlierCount : ℕ → ℕ
  triFinite : ℕ → ℕ
  meshOk : Bool

/-- Points pair `i` contributes: zero when one of the three per-pair skip
guards fires, otherwise what triangulation produced. -/
def corePairPts (env : CoreEnv) (i : ℕ) : ℕ :=
  if env.goodCount i < 12 then 0
  else if env.essOk i = false then 0
  else if env.inlierCount i < 10 then 0
  else env.triFinite i

/-- The `for i in range(n_pairs)` loop: each iteration polls the
cancellation event first and raises on `true`; otherwise the pair's
points are accumulated. -/
def coreLoop (env : CoreEnv) : List ℕ → Except CoreErr ℕ
  | [] => .ok 0
  | i :: rest =>
    if env.cancelAt i then .error .cancelled
    else
      match coreLoop env rest with
      | .error e => .error e
      | .ok acc => .ok (corePairPts env i + acc)

/-- `reconstruct_sparse` after the loop: raise when no points were
collected, else write the point cloud and attempt the optional mesh
block.  On an error nothing has been written (the value is the list of
files on disk, produced only in the success case). -/
def coreRun (env : CoreEnv) : Except CoreErr (List String) :=
  match coreLoop env (List.range (env.nImgs - 1)) with
  | .error e => .error e
  | .ok total =>
    if total = 0 then .error .noPoints
    else .ok ("point_cloud.ply" ::
      (if env.meshOk then ["mesh.ply", "mesh.obj", "mesh.stl"] else []))

/-! ## RANSAC parameters of the essential-matrix estimation (C6)

Worker (`_estimate_pose_chain`, line 650):
`cv2.findEssentialMat(pts1, pts2, K, method=cv2.RANSAC, prob=0.999,
threshold=2.0)` — the literals are mode-independent (the worker's `mode`
only selects the feature detector).  Core (`reconstruct_sparse`, line 85):
`prob=0.999, threshold=1.0`, likewise fixed literals. -/

/-- The worker's reconstruction modes (`choose_feature_strategy` accepts
`speed`, `balanced`, `quality`; `speed` is the fast mode). -/
inductive WMode
  | speed | balanced | quality
deriving DecidableEq

/-- The core module's modes (`Mode.FAST`, `Mode.HQ`). -/
inductive CoreMode
  | fast | hq
deriving DecidableEq

/-- `prob` passed to `cv2.findEssentialMat` by the worker, per mode. -/
def workerRansacProb : WMode → ℚ := fun _ => 999 / 1000

/-- `threshold` passed to `cv2.findEssentialMat` by the worker, per mode. -/
def workerRansacThreshold : WMode → ℚ := fun _ => 2

/-- `prob` passed to `cv2.findEssentialMat` by `reconstruct_sparse`. -/
def coreRansacProb : CoreMode → ℚ := fun _ => 999 / 1000

/-- `threshold` passed to `cv2.findEssentialMat` by `reconstruct_sparse`. -/
def coreRansacThreshold : CoreMode → ℚ := fun _ => 1

/-! ## Auxiliary notions used by the statements -/

/-- `ReachesZero mts k` — a chain of accepted matches, followed along
their `(i, j)` orientation, links image index `k` back to image 0. -/
inductive ReachesZero (mts : List MatchEntry) : ℕ → Prop
  | zero : ReachesZero mts 0
  | step {i j : ℕ} {ms : List DMatch} :
      (i, j, ms) ∈ mts → ReachesZero mts i → ReachesZero mts j

/-- The matches `_match_adjacent` accepts from a pair list when no
cancellation intervenes: pairs with at least `min_matches` accepted
correspondences, in order. -/
def acceptedMatches (good : ℕ × ℕ → List DMatch) (minM : ℕ)
    (ps : List (ℕ × ℕ)) : List MatchEntry :=
  ps.foldr (fun p acc =>
    if minM ≤ (good p).length then (p.1, p.2, good p) :: acc else acc) []

/-! ### Concrete instantiations used by witnesses and counterexamples -/

/-- Descriptor distances of a tiny feature-pair instance: one query
descriptor, three candidates at distances 3, 1, 9. -/
def c7d : ℕ → ℕ → ℚ := fun _ t => if t = 1 then 1 else if t = 0 then 3 else 9

/-- A two-pair match list `[(0, 1), (1, 2)]` over a single shared
correspondence. -/
def c2mts : List MatchEntry := [(0, 1, [⟨0, 0, 0⟩]), (1, 2, [⟨0, 0, 0⟩])]

/-- A concrete relative pose: a rotation swapping the first two axes and
the translation `(1, 2, 3)`. -/
def c2g : PairGeom :=
  ⟨fun i j => if (i : ℕ) = 0 ∧ (j : ℕ) = 1 ∨ (i : ℕ) = 1 ∧ (j : ℕ) = 0
              ∨ (i : ℕ) = 2 ∧ (j : ℕ) = 2 then 1 else 0,
   fun i => (i.val : ℚ) + 1⟩

/-- A relative-pose oracle succeeding everywhere with `c2g`. -/
def c2geom : ℕ → Option PairGeom := fun _ => some c2g

/-- Point cloud used by the outlier-filter witness: three collinear
points whose centroid is the middle one. -/
def c4pts : List P3 := [⟨0, 0, 0⟩, ⟨1, 0, 0⟩, ⟨5, 0, 0⟩]

/-- A worker environment in which the cancellation flag becomes observed
at pair-enumeration index 2 while the first two adjacent pairs have
already been matched, and every later stage succeeds: 8 supplied and
decoded images, 2 keypoints per image, every query accepted by the ratio
test, `min_matches = 2`, pose estimation succeeding on every consulted
pair, 300 filtered points, mesh block raising. -/
def c1env : WorkerEnv where
  nPaths := 8
  decodeOk := fun _ => true
  featLen := fun _ => 2
  dist := fun _ _ _ t => if t = 0 then 1 else 2
  minMatches := 2
  wrap := false
  cancelAt := fun idx => decide (2 ≤ idx)
  geom := fun _ => some ⟨idMat, zeroVec⟩
  triCount := fun _ _ => 300
  meshOutcome := .raisedBeforePly

/-- A worker environment with three supplied image paths (everything else
as in `c1env`, none of it reachable). -/
def c9env : WorkerEnv :=
  { c1env with nPaths := 3 }

/-- A core environment whose cancellation event is set from pair 2 on. -/
def c1core : CoreEnv where
  nImgs := 8
  cancelAt := fun i => decide (2 ≤ i)
  goodCount := fun _ => 50
  essOk := fun _ => true
  inlierCount := fun _ => 40
  triFinite := fun _ => 30
  meshOk := true

/-! ## Helper lemmas about the pose chain -/

theorem chainStep_ne {mts : List MatchEntry} {geom : ℕ → Option PairGeom}
    {poses : ℕ → Option Pose} {j k : ℕ} (hk : k ≠ j) :
    chainStep mts geom poses j k = poses k := by
  unfold chainStep
  cases lookupMatch mts (j - 1) j with
  | none => rfl
  | some ms =>
    cases geom j with
    | none => rfl
    | some g =>
      cases poses (j - 1) with
      | none => rfl
      | some pi => simp [hk]

theorem chainStep_eq {mts : List MatchEntry} {geom : ℕ → Option PairGeom}
    {poses : ℕ → Option Pose} {j : ℕ} {ms : List DMatch} {g : PairGeom} {pi : Pose}
    (hm : lookupMatch mts (j - 1) j = some ms) (hg : geom j = some g)
    (hp : poses (j - 1) = some pi) :
    chainStep mts geom poses j j =
      some ⟨matMul g.Rrel pi.R, vAdd (matVec g.Rrel pi.t) g.trel⟩ := by
  unfold chainStep
  rw [hm, hg, hp]
  simp

theorem chainUpTo_succ (mts : List MatchEntry) (geom : ℕ → Option PairGeom) (m : ℕ) :
    chainUpTo mts geom (m + 1) = chainStep mts geom (chainUpTo mts geom m) (m + 1) := by
  unfold chainUpTo
  rw [List.range'_concat, List.foldl_append]
  simp [Nat.add_comm]

/-- Prefix invariant: after the chain loop has processed pairs `1, …, m`,
only keys `< m + 1` can be populated. -/
theorem chainUpTo_none_of_gt (mts : List MatchEntry) (geom : ℕ → Option PairGeom) :
    ∀ m k, m < k → chainUpTo mts geom m k = none := by
  intro m
  induction m with
  | zero =>
    intro k hk
    unfold chainUpTo
    simp [initPoses, Nat.pos_iff_ne_zero.mp hk]
  | succ m ih =>
    intro k hk
    rw [chainUpTo_succ, chainStep_ne (by omega)]
    exact ih k (by omega)

/-! ## C8 — the dehomogenisation guard -/

/-- Claim C8 as stated is false: the dehomogenisation denominator
`X4[3] + 1e-9` is *zero* when the last homogeneous coordinate is the
negative near-zero value `-1e-9` (and the resulting point is non-finite
and silently dropped, `dehom = none`). -/
theorem dehom_guard_cex :
    dehomDenom (-(1 / 1000000000)) = 0 ∧
    dehom (fun _ => -(1 / 1000000000)) = none := by
  constructor
  · unfold dehomDenom; norm_num
  · unfold dehom dehomDenom; norm_num

/-- C8 amended: the denominator `w + 1e-9` is zero exactly at
`w = -1e-9`; for every non-negative last coordinate (in particular every
value away from `-1e-9`) it is non-zero, and `dehom` then divides by it. -/
theorem dehom_guard_amended (w : ℚ) :
    (dehomDenom w = 0 ↔ w = -(1 / 1000000000)) ∧ (0 ≤ w → dehomDenom w ≠ 0) := by
  unfold dehomDenom
  constructor
  · constructor
    · intro h; linarith
    · intro h; rw [h]; ring
  · intro hw h; linarith

theorem dehom_guard_amended_witness :
    (0 : ℚ) ≤ 5 ∧ dehomDenom 5 ≠ 0 :=
  ⟨by norm_num, (dehom_guard_amended 5).2 (by norm_num)⟩

/-! ## C6 — RANSAC parameters of essential-matrix estimation -/

/-- Claim C6's mode dependence is false: the pixel threshold handed to
`cv2.findEssentialMat` is a fixed literal in both pipelines (2.0 in the
worker, 1.0 in the core module), so it is *not* strictly smaller for the
quality/HQ mode than for the fast mode. -/
theorem ransac_threshold_cex :
    ¬ (workerRansacThreshold WMode.quality < workerRansacThreshold WMode.speed ∨
       coreRansacThreshold CoreMode.hq < coreRansacThreshold CoreMode.fast) := by
  decide

/-- C6 amended: for every mode the estimator runs with `prob = 0.999` and
a fixed, mode-independent pixel threshold (2.0 in the worker, 1.0 in the
core module); and when estimation fails for a pair (`E is None`, i.e. the
oracle yields `none`), the chain step leaves the pose map untouched —
only that pair is skipped, the loop goes on with the remaining pairs. -/
theorem ransac_params_amended :
    (∀ m, workerRansacProb m = 999 / 1000 ∧ workerRansacThreshold m = 2) ∧
    (∀ m, coreRansacProb m = 999 / 1000 ∧ coreRansacThreshold m = 1) ∧
    (∀ (mts : List MatchEntry) (geom : ℕ → Option PairGeom)
       (poses : ℕ → Option Pose) (j : ℕ), geom j = none →
         chainStep mts geom poses j = poses) := by
  refine ⟨fun m => ⟨rfl, rfl⟩, fun m => ⟨rfl, rfl⟩, ?_⟩
  intro mts geom poses j hg
  unfold chainStep
  rw [hg]
  cases lookupMatch mts (j - 1) j <;> rfl

theorem ransac_params_amended_witness :
    c2geom 5 = none ∨
      (chainStep c2mts (fun _ => none) initPoses 1 = initPoses ∧
        workerRansacProb WMode.speed = 999 / 1000) :=
  Or.inr ⟨ransac_params_amended.2.2 c2mts (fun _ => none) initPoses 1 rfl,
    (ransac_params_amended.1 WMode.speed).1⟩

/-! ## C9 — the minimum-image guard -/

/-- C9: with fewer than 8 supplied image paths the run terminates with
the `InputError` guard before entering any stage — no image is loaded, no
feature is extracted, nothing is matched or triangulated, and no file is
written. -/
theorem input_guard (env : WorkerEnv) (h : env.nPaths < 8) :
    workerRun env = ⟨.err .inputError, [], [], false⟩ := by
  unfold workerRun
  rw [if_pos h]

theorem input_guard_witness :
    c9env.nPaths < 8 ∧ workerRun c9env = ⟨.err .inputError, [], [], false⟩ :=
  ⟨by decide, input_guard c9env (by decide)⟩

/-! ## C5 — mesh failure is non-fatal -/

/-- Claim C5's empty-mesh branch is false on the code: the mesh block does
not detect an empty mesh.  When it completes with a mesh of 0 vertices
and 0 triangles (no exception), `_export_outputs` returns the *mesh*
path, not the point-cloud path, as the run's main output. -/
theorem mesh_optional_cex :
    (MeshOutcome.completed 0 0).raised = false ∧
    (exportOutputs (MeshOutcome.completed 0 0)).2 ≠ "point_cloud.ply" := by
  constructor
  · rfl
  · intro h
    simp [exportOutputs, MeshOutcome.raised] at h

/-- C5 amended: the point cloud is written first and is present whatever
the mesh block does; if the mesh block raises — before or between any of
its three file writes — the run still succeeds and returns the
point-cloud path; at run level, whenever anything was written the run's
terminal outcome is a success carrying a main path, with the point cloud
among the written files (a mesh failure never fails the run and never
retracts the point cloud).  An *empty* mesh, however, is not detected:
the run then succeeds with the mesh path as output. -/
theorem mesh_optional_amended :
    (∀ o : MeshOutcome,
      (exportOutputs o).1.head? = some "point_cloud.ply" ∧
      (o.raised = true → (exportOutputs o).2 = "point_cloud.ply")) ∧
    (∀ env : WorkerEnv, (workerRun env).written ≠ [] →
      "point_cloud.ply" ∈ (workerRun env).written ∧
      ∃ p, (workerRun env).outcome = .ok p) := by
  constructor
  · intro o
    refine ⟨rfl, fun hr => ?_⟩
    simp [exportOutputs, hr]
  · intro env h
    simp only [workerRun] at h ⊢
    split_ifs at h ⊢ <;>
      simp_all [exportOutputs]

/-- Full evaluation of the worker pipeline on `c1env`: the cancellation
is observed at pair index 2 with pairs `(0, 1)`, `(1, 2)` already matched,
the chain yields poses 0, 1, 2, the stage thresholds pass, and the run
exports the point cloud. -/
theorem c1env_run :
    workerRun c1env = ⟨.ok "point_cloud.ply", ["point_cloud.ply"],
      [.load, .extract, .matching, .pose, .tri, .exporting], true⟩ := by
  norm_num [workerRun, workerNImgs, workerGood, c1env, adjPairs, matchLoop, matchPair,
    bestTwo, sortedCands, candLE, estimatePoseChain, chainUpTo, chainStep, lookupMatch,
    initPoses, posesCount, exportOutputs, MeshOutcome.meshFiles, MeshOutcome.raised,
    List.range_succ, List.range', List.insertionSort, List.orderedInsert, List.filterMap]

theorem mesh_optional_amended_witness :
    (MeshOutcome.raisedAfterPly).raised = true ∧
    (exportOutputs MeshOutcome.raisedAfterPly).2 = "point_cloud.ply" ∧
    (workerRun c1env).written ≠ [] ∧
    "point_cloud.ply" ∈ (workerRun c1env).written :=
  ⟨rfl, (mesh_optional_amended.1 MeshOutcome.raisedAfterPly).2 rfl,
    by rw [c1env_run]; simp,
    ((mesh_optional_amended.2 c1env) (by rw [c1env_run]; simp)).1⟩

/-! ## C1 — cancellation versus export -/

/-- Claim C1 is false for the worker pipeline: in `c1env` the cancellation
flag is observed set at a per-pair iteration boundary (pair index 2 of the
matching loop, before any export), yet the run continues with the two
pairs already matched, chains poses, triangulates, and writes
`point_cloud.ply`. -/
theorem cancel_export_cex :
    (workerRun c1env).cancelObserved = true ∧
    (workerRun c1env).written ≠ [] ∧
    (workerRun c1env).outcome = .ok "point_cloud.ply" := by
  rw [c1env_run]
  exact ⟨rfl, by simp, rfl⟩

/-- If some pair of the loop's range is polled with the cancellation event
set, `reconstruct_sparse`'s per-pair loop raises the cancellation error. -/
theorem coreLoop_cancelled (env : CoreEnv) :
    ∀ l : List ℕ, (∃ i ∈ l, env.cancelAt i = true) →
      coreLoop env l = .error .cancelled := by
  intro l
  induction l with
  | nil => rintro ⟨i, hi, _⟩; exact absurd hi (List.not_mem_nil i)
  | cons j rest ih =>
    rintro ⟨i, hi, hc⟩
    by_cases hj : env.cancelAt j
    · simp only [coreLoop]
      rw [if_pos hj]
    · have hrest : coreLoop env rest = .error .cancelled := by
        refine ih ⟨i, ?_, hc⟩
        rcases List.mem_cons.mp hi with h | h
        · subst h; exact absurd hc hj
        · exact h
      simp only [coreLoop]
      rw [if_neg hj, hrest]

/-- Cancellation observed at a boundary of the matching loop: the loop
returns exactly the accepted matches of the pairs polled before the
cancellation index, and reports the observation — no later pair is
matched. -/
theorem matchLoop_cancel_prefix (cancelAt : ℕ → Bool) (good : ℕ × ℕ → List DMatch)
    (minM : ℕ) :
    ∀ (ps : List (ℕ × ℕ)) (idx k : ℕ), idx ≤ k → k < idx + ps.length →
      (∀ i, idx ≤ i → i < k → cancelAt i = false) → cancelAt k = true →
      matchLoop cancelAt good minM ps idx =
        (acceptedMatches good minM (ps.take (k - idx)), true) := by
  intro ps
  induction ps with
  | nil =>
    intro idx k h1 h2 _ _
    simp only [List.length_nil] at h2
    omega
  | cons p rest ih =>
    intro idx k hik hk hfalse htrue
    by_cases he : idx = k
    · subst he
      simp only [matchLoop]
      rw [if_pos htrue]
      simp [acceptedMatches]
    · have hlt : idx < k := lt_of_le_of_ne hik he
      have hrec := ih (idx + 1) k (by omega) (by simp only [List.length_cons] at hk; omega)
        (fun i h1 h2 => hfalse i (by omega) h2) htrue
      have htake : (p :: rest).take (k - idx) = p :: rest.take (k - (idx + 1)) := by
        have : k - idx = (k - (idx + 1)) + 1 := by omega
        rw [this, List.take_succ_cons]
      simp only [matchLoop]
      rw [if_neg (by simp [hfalse idx le_rfl hlt]), hrec, htake]
      simp [acceptedMatches]

/-- C1 amended.  Core pipeline: if the cancellation event is set when some
per-pair iteration polls it, `reconstruct_sparse` aborts with the
cancellation error — and since both file writes sit after the loop,
nothing has been written.  Worker pipeline: a cancellation observed at a
per-pair boundary of `_match_adjacent` stops the matching loop there —
only pairs polled before it are matched — but the run *continues* with
those matches and, as `cancel_export_cex` shows, may still export output
files, because no later stage polls the flag again. -/
theorem cancel_amended :
    (∀ env : CoreEnv, (∃ i, i < env.nImgs - 1 ∧ env.cancelAt i = true) →
        coreRun env = .error .cancelled) ∧
    (∀ (cancelAt : ℕ → Bool) (good : ℕ × ℕ → List DMatch) (minM : ℕ)
       (ps : List (ℕ × ℕ)) (k : ℕ), k < ps.length →
        (∀ i, i < k → cancelAt i = false) → cancelAt k = true →
        matchLoop cancelAt good minM ps 0 =
          (acceptedMatches good minM (ps.take k), true)) := by
  constructor
  · rintro env ⟨i, hi, hc⟩
    have hl := coreLoop_cancelled env (List.range (env.nImgs - 1))
      ⟨i, List.mem_range.mpr hi, hc⟩
    unfold coreRun
    rw [hl]
  · intro cancelAt good minM ps k hk hfalse htrue
    simpa using matchLoop_cancel_prefix cancelAt good minM ps 0 k (Nat.zero_le k)
      (by omega) (fun i _ h2 => hfalse i h2) htrue

theorem cancel_amended_witness :
    ((2 : ℕ) < c1core.nImgs - 1 ∧ c1core.cancelAt 2 = true) ∧
    coreRun c1core = .error .cancelled ∧
    matchLoop c1env.cancelAt (workerGood c1env) c1env.minMatches (adjPairs 8 false) 0 =
      (acceptedMatches (workerGood c1env) c1env.minMatches ((adjPairs 8 false).take 2),
        true) := by
  refine ⟨⟨by norm_num [c1core], by norm_num [c1core]⟩, ?_, ?_⟩
  · exact cancel_amended.1 c1core ⟨2, by norm_num [c1core], by norm_num [c1core]⟩
  · refine cancel_amended.2 c1env.cancelAt (workerGood c1env) c1env.minMatches
      (adjPairs 8 false) 2 (by norm_num [adjPairs]) ?_ (by norm_num [c1env])
    intro i hi
    simp only [c1env, decide_eq_false_iff_not]
    omega

/-! ## C2 — chain composition -/

/-- C2: when the chain loop processes the pair `(j - 1, j)` — the only
pairs it consults — with an accepted match, a successful essential-matrix
estimation `g`, and pose `j - 1` known as `pi`, the new pose `j` is
exactly `(R_rel @ R_i, R_rel @ t_i + t_rel)` (first conclusion).  The
prior state never knows pose `j` at that moment (second conclusion,
from the prefix invariant of the forward traversal), so the claim's
inverse-composition case — pose `j` known while pose `i` is not — can
never arise; the source accordingly has no such branch, and the claim's
second conditional holds vacuously. -/
theorem chain_composition (mts : List MatchEntry) (geom : ℕ → Option PairGeom)
    (j : ℕ) (hj : 1 ≤ j) (ms : List DMatch) (g : PairGeom) (pi : Pose)
    (hm : lookupMatch mts (j - 1) j = some ms)
    (hg : geom j = some g)
    (hp : chainUpTo mts geom (j - 1) (j - 1) = some pi) :
    chainUpTo mts geom j j =
      some ⟨matMul g.Rrel pi.R, vAdd (matVec g.Rrel pi.t) g.trel⟩ ∧
    chainUpTo mts geom (j - 1) j = none := by
  have hsucc : j - 1 + 1 = j := Nat.succ_pred_eq_of_pos hj
  constructor
  · have hs := chainUpTo_succ mts geom (j - 1)
    rw [hsucc] at hs
    rw [hs]
    exact chainStep_eq hm hg hp
  · exact chainUpTo_none_of_gt mts geom (j - 1) j (by omega)

theorem chain_composition_witness :
    lookupMatch c2mts 0 1 = some [⟨0, 0, 0⟩] ∧
    chainUpTo c2mts c2geom 1 1 =
      some ⟨matMul c2g.Rrel idMat, vAdd (matVec c2g.Rrel zeroVec) c2g.trel⟩ ∧
    chainUpTo c2mts c2geom 0 1 = none := by
  have hm : lookupMatch c2mts 0 1 = some [⟨0, 0, 0⟩] := by
    simp [lookupMatch, c2mts]
  have h := chain_composition c2mts c2geom 1 le_rfl [⟨0, 0, 0⟩] c2g
    ⟨idMat, zeroVec⟩ hm rfl rfl
  exact ⟨hm, h.1, h.2⟩

/-! ## C3 — pose-chain connectivity -/

theorem lookupMatch_mem {mts : List MatchEntry} {i j : ℕ} {ms : List DMatch}
    (h : lookupMatch mts i j = some ms) : (i, j, ms) ∈ mts := by
  have aux : ∀ (l : List MatchEntry) (acc : Option (List DMatch)),
      l.foldl (fun acc e => if e.1 = i ∧ e.2.1 = j then some e.2.2 else acc) acc =
        some ms →
      (i, j, ms) ∈ l ∨ acc = some ms := by
    intro l
    induction l with
    | nil => intro acc h; exact Or.inr h
    | cons e rest ih =>
      intro acc h
      rcases ih _ h with hmem | hacc
      · exact Or.inl (List.mem_cons_of_mem e hmem)
      · by_cases hc : e.1 = i ∧ e.2.1 = j
        · simp only [if_pos hc] at hacc
          refine Or.inl (List.mem_cons.mpr (Or.inl ?_))
          obtain ⟨e1, e2, e3⟩ := e
          obtain ⟨hc1, hc2⟩ := hc
          obtain rfl := Option.some.inj hacc
          simp_all
        · simp only [if_neg hc] at hacc
          exact Or.inr hacc
  rcases aux mts none h with hmem | hacc
  · exact hmem
  · cases hacc

/-- One chain step preserves connectivity of every known pose. -/
theorem chainStep_reaches {mts : List MatchEntry} {geom : ℕ → Option PairGeom}
    {poses : ℕ → Option Pose} {j : ℕ}
    (hp : ∀ k, (poses k).isSome = true → ReachesZero mts k) :
    ∀ k, ((chainStep mts geom poses j) k).isSome = true → ReachesZero mts k := by
  intro k hk
  by_cases hkj : k = j
  · subst hkj
    unfold chainStep at hk
    cases hl : lookupMatch mts (k - 1) k with
    | none => rw [hl] at hk; exact hp _ hk
    | some ms =>
      rw [hl] at hk
      cases hg : geom k with
      | none => rw [hg] at hk; exact hp _ hk
      | some g =>
        rw [hg] at hk
        cases hpi : poses (k - 1) with
        | none => rw [hpi] at hk; exact hp _ hk
        | some pi =>
          exact ReachesZero.step (lookupMatch_mem hl) (hp _ (by rw [hpi]; rfl))
  · rw [chainStep_ne hkj] at hk
    exact hp _ hk

/-- C3: pose 0 is fixed to the identity rotation and zero translation
before any pair is processed, and every image index that ends up carrying
a pose is linked back to image 0 by a chain of accepted matches. -/
theorem pose_connectivity (n : ℕ) (mts : List MatchEntry)
    (geom : ℕ → Option PairGeom) :
    initPoses 0 = some ⟨idMat, zeroVec⟩ ∧
    ∀ k, ((estimatePoseChain n mts geom) k).isSome = true → ReachesZero mts k := by
  refine ⟨rfl, ?_⟩
  have aux : ∀ (l : List ℕ) (poses : ℕ → Option Pose),
      (∀ k, (poses k).isSome = true → ReachesZero mts k) →
      ∀ k, ((l.foldl (chainStep mts geom) poses) k).isSome = true →
        ReachesZero mts k := by
    intro l
    induction l with
    | nil => intro poses h k hk; exact h k hk
    | cons j rest ih =>
      intro poses h k hk
      exact ih _ (chainStep_reaches h) k hk
  intro k hk
  refine aux _ initPoses ?_ k hk
  intro k' hk'
  unfold initPoses at hk'
  by_cases h0 : k' = 0
  · subst h0; exact ReachesZero.zero
  · rw [if_neg h0] at hk'; cases hk'

theorem pose_connectivity_witness :
    ((estimatePoseChain 3 c2mts c2geom) 2).isSome = true ∧ ReachesZero c2mts 2 := by
  have h2 : ((estimatePoseChain 3 c2mts c2geom) 2).isSome = true := by
    simp [estimatePoseChain, chainUpTo, List.range', chainStep, lookupMatch, c2mts,
      c2geom, initPoses]
  exact ⟨h2, (pose_connectivity 3 c2mts c2geom).2 2 h2⟩

/-! ## C4 — the quantile outlier filter -/

/-- C4: every point `quantileFilter` retains lies no farther from the
per-coordinate-median centroid than the 0.98 quantile of the distance
distribution of the whole pre-filter point set, and every point that lies
strictly farther than that quantile distance is removed.  The statement
holds for an arbitrary square-root function, hence in particular for the
one numpy computes. -/
theorem outlier_filter (sqrt : ℚ → ℚ) (pts : List P3) (p : P3) :
    (p ∈ quantileFilter sqrt pts →
      distTo sqrt p (centroid pts) ≤
        npQuantile (pts.map fun q => distTo sqrt q (centroid pts)) (98 / 100)) ∧
    (npQuantile (pts.map fun q => distTo sqrt q (centroid pts)) (98 / 100) <
        distTo sqrt p (centroid pts) →
      p ∉ quantileFilter sqrt pts) := by
  unfold quantileFilter
  by_cases h : 0 < pts.length
  · rw [if_pos h]
    constructor
    · intro hp
      have hlt := (List.mem_filter.mp hp).2
      rw [decide_eq_true_eq] at hlt
      exact le_of_lt hlt
    · intro hq hp
      have hlt := (List.mem_filter.mp hp).2
      rw [decide_eq_true_eq] at hlt
      exact absurd hq (not_lt.mpr (le_of_lt hlt))
  · rw [if_neg h]
    have : pts = [] := List.length_eq_zero.mp (by omega)
    subst this
    exact ⟨fun hp => absurd hp (List.not_mem_nil p),
           fun _ hp => absurd hp (List.not_mem_nil p)⟩

theorem outlier_filter_witness :
    (⟨0, 0, 0⟩ : P3) ∈ quantileFilter id c4pts ∧
    distTo id ⟨0, 0, 0⟩ (centroid c4pts) ≤
      npQuantile (c4pts.map fun q => distTo id q (centroid c4pts)) (98 / 100) ∧
    npQuantile (c4pts.map fun q => distTo id q (centroid c4pts)) (98 / 100) <
      distTo id ⟨5, 0, 0⟩ (centroid c4pts) ∧
    (⟨5, 0, 0⟩ : P3) ∉ quantileFilter id c4pts := by
  have hc : centroid c4pts = ⟨1, 0, 0⟩ := by
    norm_num [centroid, c4pts, npMedian, npSort, List.insertionSort, List.orderedInsert]
  have hq : npQuantile (c4pts.map fun q => distTo id q (centroid c4pts)) (98 / 100) =
      77 / 5 := by
    rw [hc]
    norm_num [npQuantile, npSort, c4pts, distTo, List.insertionSort, List.orderedInsert]
    rw [show ⌈(49 : ℚ) / 25⌉ = 2 by rw [Int.ceil_eq_iff]; norm_num,
      show Int.toNat 2 = 2 from rfl]
    norm_num [List.getD]
  have hmem : (⟨0, 0, 0⟩ : P3) ∈ quantileFilter id c4pts := by
    rw [quantileFilter, if_pos (by norm_num [c4pts]), hq, hc]
    norm_num [c4pts, distTo, List.filter]
  have hfar : npQuantile (c4pts.map fun q => distTo id q (centroid c4pts)) (98 / 100) <
      distTo id ⟨5, 0, 0⟩ (centroid c4pts) := by
    rw [hq, hc]
    norm_num [distTo]
  exact ⟨hmem, (outlier_filter id c4pts ⟨0, 0, 0⟩).1 hmem, hfar,
    (outlier_filter id c4pts ⟨5, 0, 0⟩).2 hfar⟩

/-! ## C7 — the ratio test -/

theorem sortedCands_sorted (d : ℕ → ℚ) (lenB : ℕ) :
    List.Sorted candLE (sortedCands d lenB) :=
  List.sorted_insertionSort candLE _

theorem sortedCands_perm (d : ℕ → ℚ) (lenB : ℕ) :
    List.Perm (sortedCands d lenB) ((List.range lenB).map fun t => (t, d t)) :=
  List.perm_insertionSort candLE _

theorem sortedCands_mem {d : ℕ → ℚ} {lenB t : ℕ} (h : t < lenB) :
    (t, d t) ∈ sortedCands d lenB := by
  rw [(sortedCands_perm d lenB).mem_iff]
  exact List.mem_map.mpr ⟨t, List.mem_range.mpr h, rfl⟩

theorem sortedCands_shape {d : ℕ → ℚ} {lenB : ℕ} {c : ℕ × ℚ}
    (h : c ∈ sortedCands d lenB) : c.1 < lenB ∧ c.2 = d c.1 := by
  have hm := (sortedCands_perm d lenB).mem_iff.mp h
  rcases List.mem_map.mp hm with ⟨t, ht, hts⟩
  obtain rfl := hts.symm
  exact ⟨List.mem_range.mp ht, rfl⟩

theorem sortedCands_nodup_fst (d : ℕ → ℚ) (lenB : ℕ) :
    ((sortedCands d lenB).map Prod.fst).Nodup := by
  have hp := (sortedCands_perm d lenB).map Prod.fst
  rw [hp.nodup_iff, List.map_map]
  have hid : (Prod.fst ∘ fun t : ℕ => (t, d t)) = id := rfl
  rw [hid, List.map_id]
  exact List.nodup_range lenB

/-- C7: every correspondence `_match_pair` accepts pairs the query with
its *nearest* candidate in the other descriptor set (its distance is a
lower bound for every candidate distance), and that distance is strictly
less than 0.75 times the distance to the second-best candidate (a
candidate distinct from the chosen one whose distance bounds every other
candidate from below), under the shared distance function `d`. -/
theorem ratio_test (d : ℕ → ℕ → ℚ) (lenA lenB : ℕ) (m : DMatch)
    (hm : m ∈ matchPair d lenA lenB) :
    m.queryIdx < lenA ∧ m.trainIdx < lenB ∧
    m.distance = d m.queryIdx m.trainIdx ∧
    (∀ t, t < lenB → m.distance ≤ d m.queryIdx t) ∧
    ∃ t2, t2 < lenB ∧ t2 ≠ m.trainIdx ∧
      (∀ t, t < lenB → t ≠ m.trainIdx → d m.queryIdx t2 ≤ d m.queryIdx t) ∧
      m.distance < 3 / 4 * d m.queryIdx t2 := by
  unfold matchPair at hm
  rcases List.mem_filterMap.mp hm with ⟨a, ha, hfa⟩
  have haA : a < lenA := List.mem_range.mp ha
  cases hS : sortedCands (d a) lenB with
  | nil =>
    have : bestTwo (d a) lenB = none := by unfold bestTwo; rw [hS]
    rw [this] at hfa; cases hfa
  | cons c1 tail =>
    cases tail with
    | nil =>
      have : bestTwo (d a) lenB = none := by unfold bestTwo; rw [hS]
      rw [this] at hfa; cases hfa
    | cons c2 rest =>
      obtain ⟨b, db⟩ := c1
      obtain ⟨s, ds⟩ := c2
      have hbt : bestTwo (d a) lenB = some ((b, db), (s, ds)) := by
        unfold bestTwo; rw [hS]
      rw [hbt] at hfa
      simp only at hfa
      by_cases hlt : db < 3 / 4 * ds
      case neg => rw [if_neg hlt] at hfa; cases hfa
      rw [if_pos hlt] at hfa
      obtain rfl := Option.some.inj hfa
      have hsorted := sortedCands_sorted (d a) lenB
      rw [hS] at hsorted
      have hhead := List.sorted_cons.mp hsorted
      have htail := List.sorted_cons.mp hhead.2
      have hmb : (b, db) ∈ sortedCands (d a) lenB := by rw [hS]; exact List.mem_cons_self _ _
      have hms : (s, ds) ∈ sortedCands (d a) lenB := by
        rw [hS]; exact List.mem_cons_of_mem _ (List.mem_cons_self _ _)
      obtain ⟨hbB, hbd0⟩ := sortedCands_shape hmb
      obtain ⟨hsB, hsd0⟩ := sortedCands_shape hms
      have hbd : db = d a b := hbd0
      have hsd : ds = d a s := hsd0
      have hnodup := sortedCands_nodup_fst (d a) lenB
      rw [hS] at hnodup
      simp only [List.map_cons, List.nodup_cons, List.mem_cons] at hnodup
      have hbs : b ≠ s := fun h => hnodup.1 (Or.inl h)
      refine ⟨haA, hbB, hbd, ?_, s, hsB, Ne.symm hbs, ?_, by rw [← hsd]; exact hlt⟩
      · intro t htB
        have hmt : (t, d a t) ∈ sortedCands (d a) lenB := sortedCands_mem htB
        rw [hS] at hmt
        rcases List.mem_cons.mp hmt with he | hmt'
        · have hdb : d a t = db := congrArg Prod.snd he
          simp only [DMatch.distance] at hdb ⊢
          rw [hdb]
        · exact hhead.1 _ hmt'
      · intro t htB htb
        have hmt : (t, d a t) ∈ sortedCands (d a) lenB := sortedCands_mem htB
        rw [hS] at hmt
        rcases List.mem_cons.mp hmt with he | hmt'
        · exact absurd (congrArg Prod.fst he) htb
        · rcases List.mem_cons.mp hmt' with he' | hmt''
          · have hds : d a t = ds := congrArg Prod.snd he'
            rw [← hsd, hds]
          · have hle : ds ≤ d a t := htail.1 _ hmt''
            rw [← hsd]
            exact hle

theorem ratio_test_witness :
    (⟨0, 1, 1⟩ : DMatch) ∈ matchPair c7d 1 3 ∧
    (∀ t, t < 3 → (⟨0, 1, 1⟩ : DMatch).distance ≤ c7d 0 t) ∧
    ∃ t2, t2 < 3 ∧ t2 ≠ 1 ∧ (⟨0, 1, 1⟩ : DMatch).distance < 3 / 4 * c7d 0 t2 := by
  have hmem : (⟨0, 1, 1⟩ : DMatch) ∈ matchPair c7d 1 3 := by
    norm_num [matchPair, bestTwo, sortedCands, candLE, c7d, List.range_succ,
      List.insertionSort, List.orderedInsert]
  obtain ⟨_, _, _, h4, t2, ht2, hne, _, hr⟩ := ratio_test c7d 1 3 ⟨0, 1, 1⟩ hmem
  exact ⟨hmem, h4, t2, ht2, hne, hr⟩

/-! ## C10 — the wrap-around match is inert for poses -/

theorem lookupMatch_append_single (mts : List MatchEntry) (w : MatchEntry) (i j : ℕ) :
    lookupMatch (mts ++ [w]) i j =
      if w.1 = i ∧ w.2.1 = j then some w.2.2 else lookupMatch mts i j := by
  unfold lookupMatch
  rw [List.foldl_append]
  rfl

theorem chainStep_wrap {w : MatchEntry} (hw : w.2.1 = 0) (mts : List MatchEntry)
    (geom : ℕ → Option PairGeom) (poses : ℕ → Option Pose) {j : ℕ} (hj : 1 ≤ j) :
    chainStep (mts ++ [w]) geom poses j = chainStep mts geom poses j := by
  unfold chainStep
  rw [lookupMatch_append_single,
    if_neg (by rintro ⟨h1, h2⟩; rw [hw] at h2; omega)]

theorem chainUpTo_wrap {w : MatchEntry} (hw : w.2.1 = 0) (mts : List MatchEntry)
    (geom : ℕ → Option PairGeom) (m : ℕ) :
    chainUpTo (mts ++ [w]) geom m = chainUpTo mts geom m := by
  unfold chainUpTo
  have aux : ∀ (l : List ℕ) (poses : ℕ → Option Pose), (∀ j ∈ l, 1 ≤ j) →
      l.foldl (chainStep (mts ++ [w]) geom) poses =
        l.foldl (chainStep mts geom) poses := by
    intro l
    induction l with
    | nil => intro poses _; rfl
    | cons j rest ih =>
      intro poses hl
      simp only [List.foldl_cons]
      rw [chainStep_wrap hw mts geom poses (hl j (List.mem_cons_self j rest))]
      exact ih _ fun x hx => hl x (List.mem_cons_of_mem _ hx)
  exact aux _ _ fun j hj => (List.mem_range'_1.mp hj).1

/-- C10: with `wrap_match` on (and at least 3 images) the pair list gains
exactly the wrap pair `(n - 1, 0)` at the end; the pose chain — which
only consults the consecutive keys `(j - 1, j)` for `j ≥ 1` — is entirely
unaffected by a wrap match entry; and triangulation over the extended
match list yields precisely the points of the adjacent matches plus the
wrap pair's own contribution, all computed from the unchanged poses. -/
theorem wrap_match_inert (n : ℕ) (hn : 3 ≤ n) (mts : List MatchEntry)
    (geom : ℕ → Option PairGeom) (ms : List DMatch) (env : TriEnv) :
    adjPairs n true = adjPairs n false ++ [(n - 1, 0)] ∧
    estimatePoseChain n (mts ++ [(n - 1, 0, ms)]) geom =
      estimatePoseChain n mts geom ∧
    triangulateSparse env (estimatePoseChain n mts geom) (mts ++ [(n - 1, 0, ms)]) =
      triangulateSparse env (estimatePoseChain n mts geom) mts ++
        triangulateMatch env (estimatePoseChain n mts geom) (n - 1, 0, ms) := by
  refine ⟨?_, ?_, ?_⟩
  · simp [adjPairs, hn]
  · unfold estimatePoseChain
    exact chainUpTo_wrap rfl mts geom (n - 1)
  · unfold triangulateSparse
    simp

theorem wrap_match_inert_witness :
    (3 : ℕ) ≤ 3 ∧ adjPairs 3 true = adjPairs 3 false ++ [(2, 0)] ∧
    estimatePoseChain 3 (c2mts ++ [(2, 0, [])]) c2geom =
      estimatePoseChain 3 c2mts c2geom := by
  have h := wrap_match_inert 3 (by norm_num) c2mts c2geom []
    ⟨idMat, fun _ _ => (0, 0), fun _ _ _ _ => []⟩
  exact ⟨by norm_num, by simpa using h.1, by simpa using h.2.1⟩

end Antares
